import Mathlib

/-!
Verification of the AI-response resilience and normalization layer of the
Lecture-room application: the `retryWithBackoff` helper (exponential backoff on
rate-limit errors) and the delimiter-based free-text extractors
(`generateDegreePrograms`, `generateUniversityNews`, `generateSemesterSubjects`,
`findBooks`) that turn model output into typed records. The repository
contains two copies of the service module (the standalone service file and a
duplicate embedded after the `Login` component); both are embedded here.

Text is modelled as `List Char`; JavaScript `String.prototype.split`,
`trim`, `includes`, `replace(/^\W+/, '')` and `encodeURIComponent` are given
executable models below. Asynchronous operations are modelled as functions
from the attempt index to an `Except` outcome, and a run of `retryWithBackoff`
is recorded as the final outcome together with the number of invocations and
the list of backoff delays awaited, in order.
-/

/-- Convenience coercion from string literals to the character-list text model. -/
def str (s : String) : List Char := s.data

/-- If `sep` occurs at the head of the second list, return the remainder after it. -/
def stripSep : List Char → List Char → Option (List Char)
  | [], l => some l
  | _, [] => none
  | c :: cs, d :: ds => if c = d then stripSep cs ds else none

/-- Worker for `splitOnList`; `fuel` bounds the recursion and is kept at least
the length of the list being split, so with a non-empty separator it never
runs out. -/
def splitGo (sep : List Char) : Nat → List Char → List Char → List (List Char)
  | _, [], acc => [acc.reverse]
  | 0, l, acc => [acc.reverse ++ l]
  | fuel + 1, c :: rest, acc =>
    match stripSep sep (c :: rest) with
    | some rem => acc.reverse :: splitGo sep fuel rem []
    | none => splitGo sep fuel rest (c :: acc)

/-- Model of JavaScript `text.split(sep)` for a non-empty separator:
greedy left-to-right splitting; the empty string splits to `[""]`. -/
def splitOnList (sep l : List Char) : List (List Char) := splitGo sep l.length l []

/-- Model of JavaScript `l.includes(sub)`: `sub` occurs somewhere in `l`. -/
def hasSub : List Char → List Char → Bool
  | sub, [] => sub.isEmpty
  | sub, c :: rest => (stripSep sub (c :: rest)).isSome || hasSub sub rest

/-- Safe positional lookup, the model of JavaScript `xs[i]` yielding
`undefined` out of range. -/
def nth? {α : Type} : List α → Nat → Option α
  | [], _ => none
  | a :: _, 0 => some a
  | _ :: l, n + 1 => nth? l n

/-- Model of JavaScript `s.trim()`. -/
def trimList (l : List Char) : List Char :=
  ((l.dropWhile Char.isWhitespace).reverse.dropWhile Char.isWhitespace).reverse

/-- A word character in the sense of the regular-expression class `\w`. -/
def isWordChar (c : Char) : Bool := c.isAlpha || c.isDigit || c == '_'

/-- Model of JavaScript `s.replace(/^\W+/, '')`: drop the leading run of
non-word characters. -/
def stripLeadingNonWord (l : List Char) : List Char := l.dropWhile (fun c => !isWordChar c)

/-- Characters `encodeURIComponent` leaves unescaped. -/
def isUriUnreserved (c : Char) : Bool :=
  c.isAlpha || c.isDigit || c == '-' || c == '_' || c == '.' || c == '!' || c == '~' ||
    c == '*' || c == Char.ofNat 39 || c == '(' || c == ')'

/-- Upper-case hexadecimal digit for a value below 16. -/
def hexDigitChar (n : Nat) : Char := if n < 10 then Char.ofNat (48 + n) else Char.ofNat (55 + n)

/-- Percent-encoding of one byte. -/
def percentEncodeByte (b : Nat) : List Char := [Char.ofNat 37, hexDigitChar (b / 16), hexDigitChar (b % 16)]

/-- UTF-8 byte sequence of a code point. -/
def utf8Bytes (c : Char) : List Nat :=
  let n := c.toNat
  if n < 128 then [n]
  else if n < 2048 then [192 + n / 64, 128 + n % 64]
  else if n < 65536 then [224 + n / 4096, 128 + (n / 64) % 64, 128 + n % 64]
  else [240 + n / 262144, 128 + (n / 4096) % 64, 128 + (n / 64) % 64, 128 + n % 64]

/-- Model of JavaScript `encodeURIComponent`. -/
def encodeURIComponent (l : List Char) : List Char :=
  l.flatMap (fun c => if isUriUnreserved c then [c] else (utf8Bytes c).flatMap percentEncodeByte)

/-- The synthesized search-engine URL built throughout the service:
`"https://www.google.com/search?q=" + encodeURIComponent(q)`. -/
def searchUrl (q : List Char) : List Char :=
  str "https://www.google.com/search?q=" ++ encodeURIComponent q

/-- A caught JavaScript error as inspected by `retryWithBackoff`: optional
`status` and `code` fields and an optional `message` string. -/
structure JsError where
  status : Option Int
  code : Option Int
  message : Option (List Char)
deriving DecidableEq

/-- The rate-limit classification of the service copy (`part_003`, lines 23-27):
`error?.status === 429 || error?.code === 429 ||
 (error?.message && error.message.includes('429')) ||
 (error?.message && error.message.includes('RESOURCE_EXHAUSTED'))`. -/
def isRateLimit (e : JsError) : Bool :=
  e.status == some 429 || e.code == some 429 ||
    (match e.message with
     | some m => !m.isEmpty && hasSub (str "429") m
     | none => false) ||
    (match e.message with
     | some m => !m.isEmpty && hasSub (str "RESOURCE_EXHAUSTED") m
     | none => false)

/-- The rate-limit classification of the duplicate service embedded in
`Login.tsx` (lines 100-104); textually identical to `isRateLimit`. -/
def isRateLimitLogin (e : JsError) : Bool :=
  e.status == some 429 || e.code == some 429 ||
    (match e.message with
     | some m => !m.isEmpty && hasSub (str "429") m
     | none => false) ||
    (match e.message with
     | some m => !m.isEmpty && hasSub (str "RESOURCE_EXHAUSTED") m
     | none => false)

/-- Observable trace of one `retryWithBackoff` run: the final outcome, the
number of times the wrapped operation was invoked, and the backoff delays
awaited, in order. -/
structure RunResult (α : Type) where
  result : Except JsError α
  attempts : Nat
  delays : List Nat

/-- Model of `retryWithBackoff(fn, retries, delay)` from the service copy
(`part_003`, lines 14-36). The wrapped operation is modelled as a function of
the attempt index. On success the value is returned; on failure, when retries
remain and the error is rate-limited, the current `delay` is awaited and the
call recurses with `retries - 1` and `delay * 2`; otherwise the error is
re-thrown. -/
def retryRun {α : Type} (fn : Nat → Except JsError α) : Nat → Nat → Nat → RunResult α
  | retries, delay, attempt =>
    match fn attempt with
    | .ok v => ⟨.ok v, 1, []⟩
    | .error e =>
      match retries with
      | 0 => ⟨.error e, 1, []⟩
      | r + 1 =>
        if isRateLimit e then
          let rest := retryRun fn r (delay * 2) (attempt + 1)
          ⟨rest.result, rest.attempts + 1, delay :: rest.delays⟩
        else ⟨.error e, 1, []⟩

/-- Model of the duplicate `retryWithBackoff` embedded in `Login.tsx`
(lines 92-113); textually identical to the service copy. -/
def retryRunLogin {α : Type} (fn : Nat → Except JsError α) : Nat → Nat → Nat → RunResult α
  | retries, delay, attempt =>
    match fn attempt with
    | .ok v => ⟨.ok v, 1, []⟩
    | .error e =>
      match retries with
      | 0 => ⟨.error e, 1, []⟩
      | r + 1 =>
        if isRateLimitLogin e then
          let rest := retryRunLogin fn r (delay * 2) (attempt + 1)
          ⟨rest.result, rest.attempts + 1, delay :: rest.delays⟩
        else ⟨.error e, 1, []⟩

/-- A plain 429 error used in concrete evaluations. -/
def err429 : JsError := ⟨some 429, none, none⟩

/-- A plain 500 error whose message mentions neither 429 nor
RESOURCE_EXHAUSTED. -/
def err500 : JsError := ⟨some 500, none, some (str "Internal Server Error")⟩

example : isRateLimit err429 = true := by decide
example : isRateLimit err500 = false := by decide
example : retryRun (fun _ => (.error err429 : Except JsError Unit)) 3 2000 0 =
    ⟨.error err429, 4, [2000, 4000, 8000]⟩ := rfl
example : retryRun (fun _ => (.error err500 : Except JsError Unit)) 3 2000 0 =
    ⟨.error err500, 1, []⟩ := rfl

/-- List separator used between records in free-text responses: `'|||'`. -/
def tripleBar : List Char := str "|||"

/-- Field separator used inside news and book records: `'$$'`. -/
def dollarSep : List Char := str "$$"

/-- Line separator. -/
def newlineSep : List Char := str "\n"

/-- Field separator used inside subject lines: `'|'`. -/
def barSep : List Char := str "|"

/-- A parsed news item: `{headline, date, snippet, link}`. -/
structure NewsItem where
  headline : List Char
  date : List Char
  snippet : List Char
  link : List Char
deriving DecidableEq

/-- A parsed curriculum subject: `{code, title, description}`. -/
structure Subject where
  code : List Char
  title : List Char
  description : List Char
deriving DecidableEq

/-- A parsed book record: `{title, author, description, link}`. -/
structure Book where
  title : List Char
  author : List Char
  description : List Char
  link : List Char
deriving DecidableEq

/-- A book whose fields are all empty, used as a lookup default. -/
def emptyBook : Book := ⟨[], [], [], []⟩

/-- Model of `groundingChunks[index]?.web?.uri || <searchUrl>` in
`generateUniversityNews` (`part_003`, line 143): the grounding citation URI at
the given pre-filter index when present and non-empty, otherwise the
synthesized search URL for `universityName + " news"`. -/
def groundedNewsLink (universityName : List Char) (grounding : List (Option (List Char)))
    (index : Nat) : List Char :=
  match (nth? grounding index).getD none with
  | some uri => if uri.isEmpty then searchUrl (universityName ++ str " news") else uri
  | none => searchUrl (universityName ++ str " news")

/-- Model of the link computation in `generateUniversityNews` (`part_003`,
lines 141-144): take `parts[3]?.trim()`; when absent or shorter than 5
characters, fall back to the grounded link. -/
def newsItemLink (universityName : List Char) (grounding : List (Option (List Char)))
    (index : Nat) (parts : List (List Char)) : List Char :=
  match nth? parts 3 with
  | some raw =>
    if (trimList raw).length < 5 then groundedNewsLink universityName grounding index
    else trimList raw
  | none => groundedNewsLink universityName grounding index

/-- Model of the `rawNews.forEach` loop of `generateUniversityNews`
(`part_003`, lines 138-153): each `'|||'`-separated segment is split on
`'$$'`; segments with at least 3 fields are emitted (headline trimmed and
stripped of leading non-word characters, date and snippet trimmed, link as
`newsItemLink`); other segments are skipped. `index` is the pre-filter
position of the head segment. -/
def buildNews (universityName : List Char) (grounding : List (Option (List Char))) :
    Nat → List (List Char) → List NewsItem
  | _, [] => []
  | index, item :: rest =>
    let parts := splitOnList dollarSep item
    if parts.length ≥ 3 then
      { headline := stripLeadingNonWord (trimList (parts.getD 0 [])),
        date := trimList (parts.getD 1 []),
        snippet := trimList (parts.getD 2 []),
        link := newsItemLink universityName grounding index parts }
        :: buildNews universityName grounding (index + 1) rest
    else buildNews universityName grounding (index + 1) rest

/-- The pure extraction of `generateUniversityNews` (`part_003`, lines
132-155): split the response text on `'|||'`, build news items, and return
`newsItems.slice(0, 4)`. -/
def generateUniversityNewsExtract (universityName : List Char)
    (grounding : List (Option (List Char))) (text : List Char) : List NewsItem :=
  (buildNews universityName grounding 0 (splitOnList tripleBar text)).take 4

/-- Default description used when a subject line has no third field:
`"Core course module."`. -/
def defaultDescription : List Char := str "Core course module."

/-- Model of the `lines.forEach` loop shared by both copies of
`generateSemesterSubjects` (`part_003`, lines 186-198; `Login.tsx`, lines
329-341): a line containing `'|'` is split on `'|'`; with at least 2 fields a
subject is emitted with trimmed code and title, and description
`parts[2]?.trim() || "Core course module."`. -/
def buildSubjects : List (List Char) → List Subject
  | [] => []
  | line :: rest =>
    if hasSub barSep line then
      let parts := splitOnList barSep line
      if parts.length ≥ 2 then
        { code := trimList (parts.getD 0 []),
          title := trimList (parts.getD 1 []),
          description :=
            match nth? parts 2 with
            | some d => if (trimList d).isEmpty then defaultDescription else trimList d
            | none => defaultDescription } :: buildSubjects rest
      else buildSubjects rest
    else buildSubjects rest

/-- The pure extraction of `generateSemesterSubjects` (`part_003`, lines
183-200): split on newlines, build subjects, return `subjects.slice(0, 8)`. -/
def generateSemesterSubjectsExtract (text : List Char) : List Subject :=
  (buildSubjects (splitOnList newlineSep text)).take 8

/-- Model of the book link in `findBooks` (`part_003`, line 529):
`groundingChunks[index]?.web?.uri ||
 searchUrl(encodeURIComponent(parts[0].trim() + " book"))`. -/
def bookLink (grounding : List (Option (List Char))) (index : Nat)
    (trimmedTitle : List Char) : List Char :=
  match (nth? grounding index).getD none with
  | some uri => if uri.isEmpty then searchUrl (trimmedTitle ++ str " book") else uri
  | none => searchUrl (trimmedTitle ++ str " book")

/-- Model of the `rawBooks.forEach` loop of `findBooks` (`part_003`, lines
522-532): segments with at least 3 `'$$'`-fields are emitted; the title is
trimmed and stripped of leading non-word characters; the link is `bookLink`
at the pre-filter index. -/
def buildBooks (grounding : List (Option (List Char))) : Nat → List (List Char) → List Book
  | _, [] => []
  | index, rb :: rest =>
    let parts := splitOnList dollarSep rb
    if parts.length ≥ 3 then
      { title := stripLeadingNonWord (trimList (parts.getD 0 [])),
        author := trimList (parts.getD 1 []),
        description := trimList (parts.getD 2 []),
        link := bookLink grounding index (trimList (parts.getD 0 [])) }
        :: buildBooks grounding (index + 1) rest
    else buildBooks grounding (index + 1) rest

/-- The pure extraction of `findBooks` (`part_003`, lines 503-540): split the
response text on `'|||'` and build books; no cap is applied. -/
def findBooksExtract (grounding : List (Option (List Char))) (text : List Char) : List Book :=
  buildBooks grounding 0 (splitOnList tripleBar text)

/-- Model of the `rawBooks.forEach` loop of the duplicate `findBooks` embedded
in `Login.tsx` (lines 559-569): same field-count rule, but the title is only
trimmed and the link is always the literal `"#"`. -/
def buildBooksLogin : List (List Char) → List Book
  | [] => []
  | rb :: rest =>
    let parts := splitOnList dollarSep rb
    if parts.length ≥ 3 then
      { title := trimList (parts.getD 0 []),
        author := trimList (parts.getD 1 []),
        description := trimList (parts.getD 2 []),
        link := str "#" } :: buildBooksLogin rest
    else buildBooksLogin rest

/-- The pure extraction of the `Login.tsx` copy of `findBooks` (lines
545-575). -/
def findBooksLoginExtract (text : List Char) : List Book :=
  buildBooksLogin (splitOnList tripleBar text)

/-- The hard-coded program list returned by the `catch` clause of
`generateDegreePrograms` (`part_003`, line 102). -/
def fallbackPrograms : List (List Char) :=
  [str "Computer Science", str "Economics", str "Law", str "Accounting", str "Medicine",
   str "Mass Communication", str "Political Science", str "Mechanical Engineering"]

/-- The `'|||'`-based program extraction of `generateDegreePrograms`
(`part_003`, lines 89-91): split on `'|||'`, trim, keep entries longer than 3
characters that do not contain `"List of"`. -/
def programsOf (text : List Char) : List (List Char) :=
  ((splitOnList tripleBar text).map trimList).filter
    (fun p => decide (3 < p.length) && !hasSub (str "List of") p)

/-- The newline-based re-parse of `generateDegreePrograms` (`part_003`, lines
94-96): split on newlines, strip leading non-word characters, trim, keep
entries longer than 5 characters. -/
def newlineReparse (text : List Char) : List (List Char) :=
  ((splitOnList newlineSep text).map (fun p => trimList (stripLeadingNonWord p))).filter
    (fun p => decide (5 < p.length))

/-- The pure extraction of `generateDegreePrograms` (`part_003`, lines
86-99): empty text yields `[]`; when the `'|||'` extraction yields fewer
than 5 entries the newline re-parse is returned instead. -/
def generateDegreeProgramsExtract (text : List Char) : List (List Char) :=
  if text.isEmpty then []
  else
    let programs := programsOf text
    if programs.length < 5 then newlineReparse text else programs

/-- `generateDegreePrograms` (`part_003`, lines 68-105) at the level of one
response: `net` models the outcome of the awaited `generateContent` call
(`.ok` carries the optional `response.text`); a thrown error is caught and the
hard-coded fallback list returned. -/
def generateDegreePrograms (net : Except JsError (Option (List Char))) : List (List Char) :=
  match net with
  | .error _ => fallbackPrograms
  | .ok t => generateDegreeProgramsExtract (t.getD [])

/-- The mock program list of the `Login.tsx` service copy (lines 126-130). -/
def mockPrograms : List (List Char) :=
  [str "Computer Science", str "Software Engineering", str "Business Administration",
   str "Economics", str "Accounting", str "Mass Communication", str "Law",
   str "Medicine and Surgery", str "International Relations", str "Microbiology"]

/-- The `'|||'`-based program extraction of the `Login.tsx` copy of
`generateDegreePrograms` (line 255): trim and keep entries longer than 3
characters (no `"List of"` filter). -/
def programsOfLogin (text : List Char) : List (List Char) :=
  ((splitOnList tripleBar text).map trimList).filter (fun p => decide (3 < p.length))

/-- The live path of the `Login.tsx` copy of `generateDegreePrograms` (lines
237-261): on a thrown error return `mockPrograms`; on empty text return `[]`;
otherwise return the parsed programs when non-empty, else `mockPrograms`. -/
def generateDegreeProgramsLoginLive (net : Except JsError (Option (List Char))) :
    List (List Char) :=
  match net with
  | .error _ => mockPrograms
  | .ok t =>
    let text := t.getD []
    if text.isEmpty then []
    else
      let programs := programsOfLogin text
      if programs.isEmpty then mockPrograms else programs

/-- The module-level mock-mode flag of the `Login.tsx` service copy (line 73):
`!apiKey || apiKey === "undefined" || apiKey.length < 5`, computed once at
module initialization from the environment-provided credential. -/
def isMockMode (apiKey : Option (List Char)) : Bool :=
  match apiKey with
  | none => true
  | some s => s.isEmpty || s == str "undefined" || decide (s.length < 5)

/-- The full `Login.tsx` copy of `generateDegreePrograms` (lines 234-262)
including the mock-mode gate (`if (isMockMode || !ai) return
mockDelay(mockPrograms)`; the client `ai` is null exactly when `isMockMode`
holds, line 80). -/
def generateDegreeProgramsLogin (apiKey : Option (List Char))
    (net : Except JsError (Option (List Char))) : List (List Char) :=
  if isMockMode apiKey then mockPrograms else generateDegreeProgramsLoginLive net

/-- The mock subject list of the `Login.tsx` service copy (lines 132-139). -/
def getMockSubjects : List Subject :=
  [⟨str "GST 101", str "Use of English", str "Communication skills, essay writing, and comprehension."⟩,
   ⟨str "MTH 101", str "General Mathematics I", str "Algebra, Trigonometry, and Coordinate Geometry."⟩,
   ⟨str "CSC 101", str "Intro to Computer Science", str "History of computing, binary systems, and algorithms."⟩,
   ⟨str "PHY 101", str "General Physics I", str "Mechanics, properties of matter, and thermal physics."⟩,
   ⟨str "CHM 101", str "General Chemistry I", str "Atomic structure, chemical bonding, and stoichiometry."⟩,
   ⟨str "GST 103", str "Nigerian Peoples & Culture", str "Study of Nigerian history, ethnic groups, and cultures."⟩]

/-- The live path of the `Login.tsx` copy of `generateSemesterSubjects`
(lines 316-346): on a thrown error return the mock subjects; otherwise return
`subjects.slice(0, 8)` when any subject parsed, else the mock subjects. -/
def generateSemesterSubjectsLoginLive (net : Except JsError (Option (List Char))) :
    List Subject :=
  match net with
  | .error _ => getMockSubjects
  | .ok t =>
    let subjects := buildSubjects (splitOnList newlineSep (t.getD []))
    if subjects.isEmpty then getMockSubjects else subjects.take 8

/-- The full `Login.tsx` copy of `generateSemesterSubjects` (lines 313-347)
including the mock-mode gate. -/
def generateSemesterSubjectsLogin (apiKey : Option (List Char))
    (net : Except JsError (Option (List Char))) : List Subject :=
  if isMockMode apiKey then getMockSubjects else generateSemesterSubjectsLoginLive net

example : generateUniversityNewsExtract (str "UNILAG") []
    (str "A headline$$2 days ago$$Snip$$https://unilag.edu.ng/news") =
    [⟨str "A headline", str "2 days ago", str "Snip", str "https://unilag.edu.ng/news"⟩] := by decide
example : generateSemesterSubjectsExtract (str "CSC 201|Programming I|Intro\nno bar line") =
    [⟨str "CSC 201", str "Programming I", str "Intro"⟩] := by decide
example : generateDegreeProgramsExtract (str "Mathematics|||Economics|||Accounting") =
    [str "Mathematics|||Economics|||Accounting"] := by decide
example : findBooksLoginExtract (str "T$$A$$D") = [⟨str "T", str "A", str "D", str "#"⟩] := by decide
example : encodeURIComponent (str "UNILAG news") = str "UNILAG%20news" := by decide

/-- Unfolding: a successful attempt returns at once with one invocation and no
delay. -/
theorem retryRun_ok_eq {α : Type} (fn : Nat → Except JsError α) (v : α) (r d a : Nat)
    (h : fn a = .ok v) : retryRun fn r d a = ⟨.ok v, 1, []⟩ := by
  unfold retryRun
  rw [h]

/-- Unfolding: with no retries left the failure is re-thrown after one
invocation. -/
theorem retryRun_error_zero {α : Type} (fn : Nat → Except JsError α) (e : JsError) (d a : Nat)
    (h : fn a = .error e) : retryRun fn 0 d a = ⟨.error e, 1, []⟩ := by
  unfold retryRun
  rw [h]

/-- Unfolding: a rate-limited failure with retries left waits `d` and recurses
with half the budget and doubled delay. -/
theorem retryRun_error_succ_rl {α : Type} (fn : Nat → Except JsError α) (e : JsError)
    (n d a : Nat) (h : fn a = .error e) (hrl : isRateLimit e = true) :
    retryRun fn (n + 1) d a =
      ⟨(retryRun fn n (d * 2) (a + 1)).result, (retryRun fn n (d * 2) (a + 1)).attempts + 1,
        d :: (retryRun fn n (d * 2) (a + 1)).delays⟩ := by
  conv_lhs => rw [retryRun]
  rw [h]
  simp [hrl]

/-- Unfolding: a failure not classified as rate-limited is re-thrown at once
even with retries left. -/
theorem retryRun_error_succ_nrl {α : Type} (fn : Nat → Except JsError α) (e : JsError)
    (n d a : Nat) (h : fn a = .error e) (hrl : isRateLimit e = false) :
    retryRun fn (n + 1) d a = ⟨.error e, 1, []⟩ := by
  conv_lhs => rw [retryRun]
  rw [h]
  simp [hrl]

/-- An always-rate-limited operation is invoked `r + 1` times starting from
attempt `a`, ending in the failure of attempt `a + r`. -/
theorem retryRun_allRateLimited {α : Type} (err : Nat → JsError) (fn : Nat → Except JsError α)
    (hfn : ∀ i, fn i = .error (err i)) (hrl : ∀ i, isRateLimit (err i) = true) :
    ∀ (r d a : Nat), (retryRun fn r d a).result = .error (err (a + r)) ∧
      (retryRun fn r d a).attempts = r + 1 := by
  intro r
  induction r with
  | zero =>
    intro d a
    rw [retryRun_error_zero fn (err a) d a (hfn a)]
    simp
  | succ n ih =>
    intro d a
    rw [retryRun_error_succ_rl fn (err a) n d a (hfn a) (hrl a)]
    obtain ⟨hres, hatt⟩ := ih (d * 2) (a + 1)
    refine ⟨?_, ?_⟩
    · rw [hres]
      have : a + 1 + n = a + (n + 1) := by omega
      rw [this]
    · rw [hatt]

/-- Claim C1: for every asynchronous operation and every retry budget
`r ≥ 0`, if the operation fails on every attempt with a rate-limited error,
`retryWithBackoff` invokes it exactly `r + 1` times and then re-throws the
failure of the last attempt. -/
theorem retry_exhausts_and_rethrows_last {α : Type} (err : Nat → JsError)
    (fn : Nat → Except JsError α) (r d : Nat)
    (hfn : ∀ i, fn i = .error (err i)) (hrl : ∀ i, isRateLimit (err i) = true) :
    (retryRun fn r d 0).attempts = r + 1 ∧ (retryRun fn r d 0).result = .error (err r) := by
  obtain ⟨hres, hatt⟩ := retryRun_allRateLimited err fn hfn hrl r d 0
  rw [Nat.zero_add] at hres
  exact ⟨hatt, hres⟩

/-- Witness for C1: with the default budget of 3 retries, an operation that
always fails with status 429 is invoked 4 times and its failure re-thrown. -/
theorem retry_exhausts_and_rethrows_last_witness :
    (retryRun (fun _ => (.error err429 : Except JsError Unit)) 3 2000 0).attempts = 3 + 1 ∧
    (retryRun (fun _ => (.error err429 : Except JsError Unit)) 3 2000 0).result =
      .error err429 := by
  have h : isRateLimit err429 = true := by decide
  exact retry_exhausts_and_rethrows_last (fun _ => err429) (fun _ => .error err429) 3 2000
    (fun _ => rfl) (fun _ => h)

/-- The spec's description of the rate-limit signature, written from the
spec's words for comparison with the source-derived `isRateLimit`: a status
field of 429, a code field of 429, or a message containing `"429"` or
`"RESOURCE_EXHAUSTED"`. -/
def rateLimitedPerSpec (e : JsError) : Bool :=
  e.status == some 429 || e.code == some 429 ||
    (match e.message with
     | some m => hasSub (str "429") m || hasSub (str "RESOURCE_EXHAUSTED") m
     | none => false)

/-- Claim C2: the caught error is classified as rate-limited exactly under the
spec's signature (status 429, code 429, or a message containing `"429"` or
`"RESOURCE_EXHAUSTED"`), and an operation whose failure is not so classified
is invoked exactly once and its failure re-thrown with no delay. -/
theorem rate_limit_classification_and_no_retry :
    (∀ e, isRateLimit e = rateLimitedPerSpec e) ∧
    (∀ (α : Type) (fn : Nat → Except JsError α) (r d a : Nat) (e : JsError),
      fn a = .error e → isRateLimit e = false → retryRun fn r d a = ⟨.error e, 1, []⟩) := by
  constructor
  · intro e
    obtain ⟨s, c, m⟩ := e
    have h429 : hasSub (str "429") [] = false := rfl
    have hres : hasSub (str "RESOURCE_EXHAUSTED") [] = false := rfl
    cases m with
    | none => simp [isRateLimit, rateLimitedPerSpec]
    | some m =>
      cases m with
      | nil => simp [isRateLimit, rateLimitedPerSpec, h429, hres]
      | cons c0 m0 => simp [isRateLimit, rateLimitedPerSpec, Bool.or_assoc]
  · intro α fn r d a e hfa hrl
    cases r with
    | zero => exact retryRun_error_zero fn e d a hfa
    | succ n => exact retryRun_error_succ_nrl fn e n d a hfa hrl

/-- Witness for C2: an HTTP 500 failure with an unrelated message is attempted
once and re-thrown with no backoff delay. -/
theorem rate_limit_classification_and_no_retry_witness :
    retryRun (fun _ => (.error err500 : Except JsError Unit)) 3 2000 0 =
      ⟨.error err500, 1, []⟩ :=
  rate_limit_classification_and_no_retry.2 Unit (fun _ => .error err500) 3 2000 0 err500
    rfl (by decide)

/-- In every run the `k`-th backoff delay (0-indexed) is the initial delay
doubled `k` times, whatever the wrapped operation does. -/
theorem retryRun_delays_getD {α : Type} (fn : Nat → Except JsError α) :
    ∀ (r d a k : Nat), k < (retryRun fn r d a).delays.length →
      (retryRun fn r d a).delays.getD k 0 = d * 2 ^ k := by
  intro r
  induction r with
  | zero =>
    intro d a k h
    exfalso
    cases hfa : fn a with
    | ok v => rw [retryRun_ok_eq fn v 0 d a hfa] at h; simp at h
    | error e => rw [retryRun_error_zero fn e d a hfa] at h; simp at h
  | succ n ih =>
    intro d a k h
    cases hfa : fn a with
    | ok v =>
      exfalso
      rw [retryRun_ok_eq fn v (n + 1) d a hfa] at h
      simp at h
    | error e =>
      cases hrl : isRateLimit e with
      | false =>
        exfalso
        rw [retryRun_error_succ_nrl fn e n d a hfa hrl] at h
        simp at h
      | true =>
        rw [retryRun_error_succ_rl fn e n d a hfa hrl] at h ⊢
        cases k with
        | zero => simp [pow_zero]
        | succ k =>
          simp only [List.getD_cons_succ]
          have h' : k < (retryRun fn n (d * 2) (a + 1)).delays.length := by
            simpa using h
          rw [ih (d * 2) (a + 1) k h']
          ring

/-- Claim C3: the delay awaited before retry attempt `k` (1-indexed over the
retries, hence 0-indexed position `k - 1` in the delay trace) equals the
initial delay times the code's fixed multiplier 2 raised to `k - 1`, for every
wrapped operation and budget; in particular the default policy (3 retries,
initial delay 2000) yields delays of exactly 2000, 4000 and 8000 ms before
attempts 2, 3 and 4. -/
theorem backoff_delay_schedule :
    (∀ (α : Type) (fn : Nat → Except JsError α) (r d a k : Nat),
        k < (retryRun fn r d a).delays.length →
        (retryRun fn r d a).delays.getD k 0 = d * 2 ^ k) ∧
    (retryRun (fun _ => (.error err429 : Except JsError Unit)) 3 2000 0).delays =
      [2000, 4000, 8000] :=
  ⟨fun _ fn r d a k h => retryRun_delays_getD fn r d a k h, rfl⟩

/-- Witness for C3: in the default always-rate-limited run the third delay is
2000 times 2 squared, that is 8000 ms. -/
theorem backoff_delay_schedule_witness :
    (retryRun (fun _ => (.error err429 : Except JsError Unit)) 3 2000 0).delays.getD 2 0 =
      2000 * 2 ^ 2 :=
  backoff_delay_schedule.1 Unit (fun _ => .error err429) 3 2000 0 2 (by decide)

/-- The two textually identical classifications agree. -/
theorem isRateLimit_eq_login (e : JsError) : isRateLimit e = isRateLimitLogin e := rfl

/-- Unfolding for the `Login.tsx` copy, mirrored from `retryRun_ok_eq`. -/
theorem retryRunLogin_ok_eq {α : Type} (fn : Nat → Except JsError α) (v : α) (r d a : Nat)
    (h : fn a = .ok v) : retryRunLogin fn r d a = ⟨.ok v, 1, []⟩ := by
  unfold retryRunLogin
  rw [h]

/-- Unfolding for the `Login.tsx` copy, mirrored from `retryRun_error_zero`. -/
theorem retryRunLogin_error_zero {α : Type} (fn : Nat → Except JsError α) (e : JsError)
    (d a : Nat) (h : fn a = .error e) : retryRunLogin fn 0 d a = ⟨.error e, 1, []⟩ := by
  unfold retryRunLogin
  rw [h]

/-- Unfolding for the `Login.tsx` copy, mirrored from
`retryRun_error_succ_rl`. -/
theorem retryRunLogin_error_succ_rl {α : Type} (fn : Nat → Except JsError α) (e : JsError)
    (n d a : Nat) (h : fn a = .error e) (hrl : isRateLimitLogin e = true) :
    retryRunLogin fn (n + 1) d a =
      ⟨(retryRunLogin fn n (d * 2) (a + 1)).result,
        (retryRunLogin fn n (d * 2) (a + 1)).attempts + 1,
        d :: (retryRunLogin fn n (d * 2) (a + 1)).delays⟩ := by
  conv_lhs => rw [retryRunLogin]
  rw [h]
  simp [hrl]

/-- Unfolding for the `Login.tsx` copy, mirrored from
`retryRun_error_succ_nrl`. -/
theorem retryRunLogin_error_succ_nrl {α : Type} (fn : Nat → Except JsError α) (e : JsError)
    (n d a : Nat) (h : fn a = .error e) (hrl : isRateLimitLogin e = false) :
    retryRunLogin fn (n + 1) d a = ⟨.error e, 1, []⟩ := by
  conv_lhs => rw [retryRunLogin]
  rw [h]
  simp [hrl]

/-- Claim C10: the two copies of `retryWithBackoff` (service file and
`Login.tsx`) are extensionally equal: same classification, same attempt count,
same delay schedule, same outcome, for every operation, budget, initial delay
and starting attempt. -/
theorem retry_copies_extensionally_equal :
    ∀ (α : Type) (fn : Nat → Except JsError α) (r d a : Nat),
      retryRun fn r d a = retryRunLogin fn r d a := by
  intro α fn r
  induction r with
  | zero =>
    intro d a
    cases hfa : fn a with
    | ok v => rw [retryRun_ok_eq fn v 0 d a hfa, retryRunLogin_ok_eq fn v 0 d a hfa]
    | error e => rw [retryRun_error_zero fn e d a hfa, retryRunLogin_error_zero fn e d a hfa]
  | succ n ih =>
    intro d a
    cases hfa : fn a with
    | ok v => rw [retryRun_ok_eq fn v (n + 1) d a hfa, retryRunLogin_ok_eq fn v (n + 1) d a hfa]
    | error e =>
      cases hrl : isRateLimit e with
      | true =>
        have hrl' : isRateLimitLogin e = true := (isRateLimit_eq_login e) ▸ hrl
        rw [retryRun_error_succ_rl fn e n d a hfa hrl,
          retryRunLogin_error_succ_rl fn e n d a hfa hrl', ih (d * 2) (a + 1)]
      | false =>
        have hrl' : isRateLimitLogin e = false := (isRateLimit_eq_login e) ▸ hrl
        rw [retryRun_error_succ_nrl fn e n d a hfa hrl,
          retryRunLogin_error_succ_nrl fn e n d a hfa hrl']

/-- Counterexample to claim C4 as stated: the response text
`"Mathematics|||Economics|||Accounting"` yields exactly 3 well-formed program
entries (fewer than 5), yet `generateDegreePrograms` does not return the fixed
fallback list: the service copy returns the newline re-parse (here the single
raw line), and the `Login.tsx` copy returns the 3 real entries. -/
theorem programs_fallback_threshold_cex :
    (programsOf (str "Mathematics|||Economics|||Accounting")).length = 3 ∧
    generateDegreePrograms (.ok (some (str "Mathematics|||Economics|||Accounting"))) =
      [str "Mathematics|||Economics|||Accounting"] ∧
    generateDegreePrograms (.ok (some (str "Mathematics|||Economics|||Accounting"))) ≠
      fallbackPrograms ∧
    generateDegreeProgramsLoginLive (.ok (some (str "Mathematics|||Economics|||Accounting"))) =
      [str "Mathematics", str "Economics", str "Accounting"] := by
  refine ⟨rfl, rfl, by decide, rfl⟩

/-- Claim C4 (amended): when the `'|||'` extraction of the program-list
accessor yields fewer than 5 entries on non-empty text, the accessor returns
the newline-based re-parse of the text, not the fixed fallback set; the fixed
fallback list is returned exactly when the underlying call throws. -/
theorem programs_low_count_newline_reparse :
    (∀ t, t ≠ [] → (programsOf t).length < 5 →
        generateDegreePrograms (.ok (some t)) = newlineReparse t) ∧
    (∀ e, generateDegreePrograms (.error e) = fallbackPrograms) := by
  constructor
  · intro t ht h
    have hne : t.isEmpty = false := by
      cases t with
      | nil => exact absurd rfl ht
      | cons c l => rfl
    simp [generateDegreePrograms, generateDegreeProgramsExtract, hne, h]
  · intro e
    rfl

/-- Witness for the amended C4: a text whose extraction yields no entry at all
is re-parsed by newline rather than replaced by the fallback list. -/
theorem programs_low_count_newline_reparse_witness :
    generateDegreePrograms (.ok (some (str "CSC"))) = newlineReparse (str "CSC") :=
  programs_low_count_newline_reparse.1 (str "CSC") (by decide) (by decide)

/-- Claim C8: every extractor, being a total function of the input text, maps
the empty input to the empty record list (for the service copy's four
extractors and the `Login.tsx` book extractor). -/
theorem extractors_empty_input_empty_output :
    generateDegreeProgramsExtract [] = [] ∧
    (∀ u g, generateUniversityNewsExtract u g [] = []) ∧
    generateSemesterSubjectsExtract [] = [] ∧
    (∀ g, findBooksExtract g [] = []) ∧
    findBooksLoginExtract [] = [] :=
  ⟨rfl, fun _ _ => rfl, rfl, fun _ => rfl, rfl⟩

/-- Claim C9: mock mode is selected exactly when the credential is absent,
empty, the literal `"undefined"`, or shorter than 5 characters; and in mock
mode the accessors return their canned data for every possible network
outcome, never consulting it. The flag is a single module-level constant of
the credential, shared by all accessors. -/
theorem mock_mode_selection_and_gating :
    (∀ k, isMockMode k = true ↔
        (k = none ∨ ∃ s, k = some s ∧ (s = [] ∨ s = str "undefined" ∨ s.length < 5))) ∧
    (∀ k net, isMockMode k = true → generateDegreeProgramsLogin k net = mockPrograms) ∧
    (∀ k net, isMockMode k = true → generateSemesterSubjectsLogin k net = getMockSubjects) := by
  refine ⟨?_, ?_, ?_⟩
  · intro k
    cases k with
    | none => simp [isMockMode]
    | some s =>
      simp [isMockMode, Bool.or_eq_true, List.isEmpty_iff, beq_iff_eq, decide_eq_true_eq,
        or_assoc]
  · intro k net h
    simp [generateDegreeProgramsLogin, h]
  · intro k net h
    simp [generateSemesterSubjectsLogin, h]

/-- Witness for C9: the 3-character credential `"abc"` selects mock mode, and
both accessors then return their canned data even though the modelled network
response carries real text. -/
theorem mock_mode_selection_and_gating_witness :
    isMockMode (some (str "abc")) = true ∧
    generateDegreeProgramsLogin (some (str "abc"))
      (.ok (some (str "Mathematics|||Philosophy"))) = mockPrograms ∧
    generateSemesterSubjectsLogin (some (str "abc"))
      (.ok (some (str "CSC 101|Intro|Basics"))) = getMockSubjects := by
  have h : isMockMode (some (str "abc")) = true := by decide
  exact ⟨h, mock_mode_selection_and_gating.2.1 _ _ h,
    mock_mode_selection_and_gating.2.2 _ _ h⟩

/-- Counterexample to claim C5 as stated: a news segment with an empty first
field (`"$$2 days ago$$Campus update"`) and a subject line with an empty code
(`"|Algebra"`) are both emitted as records whose required headline/code field
is empty after trimming, because the extractors only check the field count. -/
theorem extractor_empty_field_emitted_cex :
    ((generateUniversityNewsExtract (str "UNILAG") [] (str "$$2 days ago$$Campus update")).map
        NewsItem.headline) = [[]] ∧
    ((generateSemesterSubjectsExtract (str "|Algebra")).map Subject.code) = [[]] :=
  ⟨rfl, rfl⟩

/-- Claim C5 (amended): a record is emitted for a segment exactly when the
segment splits into at least the minimum field count (3 `'$$'`-fields for
news, a `'|'` plus at least 2 `'|'`-fields for subjects); the emitted fields
are trimmed but may be empty, and segments below the count are dropped
silently without aborting the rest of the batch. -/
theorem extractor_emission_by_field_count :
    (∀ u g i segs, (buildNews u g i segs).length =
        (segs.filter (fun s => decide (3 ≤ (splitOnList dollarSep s).length))).length) ∧
    (∀ lines, (buildSubjects lines).length =
        (lines.filter (fun l => hasSub barSep l &&
          decide (2 ≤ (splitOnList barSep l).length))).length) := by
  constructor
  · intro u g i segs
    induction segs generalizing i with
    | nil => rfl
    | cons s rest ih =>
      by_cases h : 3 ≤ (splitOnList dollarSep s).length
      · simp [buildNews, h, List.filter_cons, ih]
      · simp [buildNews, h, List.filter_cons, ih]
  · intro lines
    induction lines with
    | nil => rfl
    | cons l rest ih =>
      by_cases h1 : hasSub barSep l = true
      · by_cases h2 : 2 ≤ (splitOnList barSep l).length
        · simp [buildSubjects, h1, h2, List.filter_cons, ih]
        · simp [buildSubjects, h1, h2, List.filter_cons, ih]
      · simp [buildSubjects, h1, List.filter_cons, ih]

/-- Claim C6: the news extraction returns at most 4 items and the subjects
extraction at most 8, and each is exactly the first cap-many of the
well-formed records in original input order. -/
theorem extract_caps_to_first_records :
    (∀ u g t, generateUniversityNewsExtract u g t =
        (buildNews u g 0 (splitOnList tripleBar t)).take 4 ∧
      (generateUniversityNewsExtract u g t).length ≤ 4) ∧
    (∀ t, generateSemesterSubjectsExtract t =
        (buildSubjects (splitOnList newlineSep t)).take 8 ∧
      (generateSemesterSubjectsExtract t).length ≤ 8) := by
  constructor
  · intro u g t
    exact ⟨rfl, List.length_take_le 4 _⟩
  · intro t
    exact ⟨rfl, List.length_take_le 8 _⟩

/-- Twelve well-formed subject lines are truncated to exactly the first 8 in
original order. -/
example : (generateSemesterSubjectsExtract
    (str "C1|T1\nC2|T2\nC3|T3\nC4|T4\nC5|T5\nC6|T6\nC7|T7\nC8|T8\nC9|T9\nC10|T10\nC11|T11\nC12|T12")).map
      Subject.code =
    [str "C1", str "C2", str "C3", str "C4", str "C5", str "C6", str "C7", str "C8"] := by
  decide

/-- Counterexample to claim C7 as stated: the `Login.tsx` copy of `findBooks`
emits every parsed book with the literal link `"#"`, never a grounding URI or
a synthesized search URL. -/
theorem book_link_left_as_hash_cex :
    (findBooksLoginExtract (str "Algebra$$Serge Lang$$Graduate text")).map Book.link =
      [str "#"] :=
  rfl

/-- Case analysis of the grounded news link: either a non-empty grounding URI
at the queried index, or the synthesized search URL. -/
theorem groundedNewsLink_cases (u : List Char) (g : List (Option (List Char))) (i : Nat) :
    (∃ uri, (nth? g i).getD none = some uri ∧ uri ≠ [] ∧ groundedNewsLink u g i = uri) ∨
    groundedNewsLink u g i = searchUrl (u ++ str " news") := by
  cases hg : (nth? g i).getD none with
  | none =>
    right
    unfold groundedNewsLink
    rw [hg]
  | some uri =>
    by_cases he : uri.isEmpty = true
    · right
      unfold groundedNewsLink
      rw [hg]
      simp [he]
    · left
      refine ⟨uri, rfl, ?_, ?_⟩
      · intro hnil
        subst hnil
        exact he rfl
      · unfold groundedNewsLink
        rw [hg]
        simp [he]

/-- Case analysis of the book link: either a non-empty grounding URI at the
queried index, or the search URL synthesized from the trimmed title. -/
theorem bookLink_cases (g : List (Option (List Char))) (i : Nat) (tt : List Char) :
    (∃ uri, (nth? g i).getD none = some uri ∧ uri ≠ [] ∧ bookLink g i tt = uri) ∨
    bookLink g i tt = searchUrl (tt ++ str " book") := by
  cases hg : (nth? g i).getD none with
  | none =>
    right
    unfold bookLink
    rw [hg]
  | some uri =>
    by_cases he : uri.isEmpty = true
    · right
      unfold bookLink
      rw [hg]
      simp [he]
    · left
      refine ⟨uri, rfl, ?_, ?_⟩
      · intro hnil
        subst hnil
        exact he rfl
      · unfold bookLink
        rw [hg]
        simp [he]

/-- Every record built by the news loop carries a link that is an embedded
link of length at least 5, a non-empty grounding URI, or the synthesized
search URL. -/
theorem buildNews_link_shape (u : List Char) (g : List (Option (List Char))) :
    ∀ (i : Nat) (segs : List (List Char)) (r : NewsItem), r ∈ buildNews u g i segs →
      5 ≤ r.link.length ∨
      (∃ j uri, (nth? g j).getD none = some uri ∧ uri ≠ [] ∧ r.link = uri) ∨
      r.link = searchUrl (u ++ str " news") := by
  intro i segs
  induction segs generalizing i with
  | nil =>
    intro r hr
    simp [buildNews] at hr
  | cons s rest ih =>
    intro r hr
    by_cases h : 3 ≤ (splitOnList dollarSep s).length
    · rw [buildNews] at hr
      simp only [h, ge_iff_le, if_true] at hr
      rcases List.mem_cons.mp hr with heq | hmem
      · subst heq
        show 5 ≤ (newsItemLink u g i (splitOnList dollarSep s)).length ∨ _ ∨ _
        unfold newsItemLink
        cases hp : nth? (splitOnList dollarSep s) 3 with
        | none =>
          rcases groundedNewsLink_cases u g i with ⟨uri, huri, hne, heq⟩ | heq
          · exact Or.inr (Or.inl ⟨i, uri, huri, hne, heq⟩)
          · exact Or.inr (Or.inr heq)
        | some raw =>
          by_cases hlen : (trimList raw).length < 5
          · simp only [hlen, if_true]
            rcases groundedNewsLink_cases u g i with ⟨uri, huri, hne, heq⟩ | heq
            · exact Or.inr (Or.inl ⟨i, uri, huri, hne, heq⟩)
            · exact Or.inr (Or.inr heq)
          · simp only [hlen, if_false]
            exact Or.inl (Nat.le_of_not_lt hlen)
      · exact ih (i + 1) r hmem
    · rw [buildNews] at hr
      simp only [h, ge_iff_le, if_false] at hr
      exact ih (i + 1) r hr

/-- Every record built by the service copy's book loop carries a link that is
a non-empty grounding URI or the search URL synthesized from the record's
trimmed title (of which the emitted title is the non-word-stripped form). -/
theorem buildBooks_link_shape (g : List (Option (List Char))) :
    ∀ (i : Nat) (segs : List (List Char)) (b : Book), b ∈ buildBooks g i segs →
      (∃ j uri, (nth? g j).getD none = some uri ∧ uri ≠ [] ∧ b.link = uri) ∨
      (∃ q, b.title = stripLeadingNonWord q ∧ b.link = searchUrl (q ++ str " book")) := by
  intro i segs
  induction segs generalizing i with
  | nil =>
    intro b hb
    simp [buildBooks] at hb
  | cons s rest ih =>
    intro b hb
    by_cases h : 3 ≤ (splitOnList dollarSep s).length
    · rw [buildBooks] at hb
      simp only [h, ge_iff_le, if_true] at hb
      rcases List.mem_cons.mp hb with heq | hmem
      · subst heq
        rcases bookLink_cases g i (trimList ((splitOnList dollarSep s).getD 0 [])) with
          ⟨uri, huri, hne, heq⟩ | heq
        · exact Or.inl ⟨i, uri, huri, hne, heq⟩
        · exact Or.inr ⟨trimList ((splitOnList dollarSep s).getD 0 []), rfl, heq⟩
      · exact ih (i + 1) b hmem
    · rw [buildBooks] at hb
      simp only [h, ge_iff_le, if_false] at hb
      exact ih (i + 1) b hb

/-- Claim C7 (amended): in the service copy (`part_003`), every emitted news
record's link is the embedded link when it is present and at least 5
characters after trimming, otherwise a non-empty grounding-citation URI at
some pre-filter index, otherwise the search URL synthesized from the
university name; and every emitted book record's link is a non-empty
grounding URI or the search URL synthesized from the record's trimmed title.
(The `Login.tsx` duplicate of `findBooks` instead emits the literal `"#"`,
which is the counterexample to the claim as stated.) -/
theorem link_substitution_grounded_or_search :
    (∀ u g t, ∀ r ∈ generateUniversityNewsExtract u g t,
        5 ≤ r.link.length ∨
        (∃ j uri, (nth? g j).getD none = some uri ∧ uri ≠ [] ∧ r.link = uri) ∨
        r.link = searchUrl (u ++ str " news")) ∧
    (∀ g t, ∀ b ∈ findBooksExtract g t,
        (∃ j uri, (nth? g j).getD none = some uri ∧ uri ≠ [] ∧ b.link = uri) ∨
        (∃ q, b.title = stripLeadingNonWord q ∧ b.link = searchUrl (q ++ str " book"))) := by
  constructor
  · intro u g t r hr
    exact buildNews_link_shape u g 0 (splitOnList tripleBar t) r (List.mem_of_mem_take hr)
  · intro g t b hb
    exact buildBooks_link_shape g 0 (splitOnList tripleBar t) b hb

/-- Witness for the amended C7: the single book parsed from
`"Linear Algebra$$Lang$$Text"` with no grounding citations gets a link
synthesized from its title. -/
theorem link_substitution_grounded_or_search_witness :
    (∃ j uri, (nth? ([] : List (Option (List Char))) j).getD none = some uri ∧ uri ≠ [] ∧
      ((findBooksExtract [] (str "Linear Algebra$$Lang$$Text")).getD 0 emptyBook).link = uri) ∨
    (∃ q, ((findBooksExtract [] (str "Linear Algebra$$Lang$$Text")).getD 0 emptyBook).title =
        stripLeadingNonWord q ∧
      ((findBooksExtract [] (str "Linear Algebra$$Lang$$Text")).getD 0 emptyBook).link =
        searchUrl (q ++ str " book")) := by
  have hmem : (findBooksExtract [] (str "Linear Algebra$$Lang$$Text")).getD 0 emptyBook ∈
      findBooksExtract [] (str "Linear Algebra$$Lang$$Text") := by decide
  exact link_substitution_grounded_or_search.2 [] (str "Linear Algebra$$Lang$$Text") _ hmem
